import Mathlib

/-!
Shallow embedding of the NAPI reference/handle subsystem from
`src/bun.js/bindings/napi.h`: the environment (`napi_env__`) with its
last-error record and instance-data cleanup, the `toJS`/`toNapi` handle
conversions, the `NapiWeakValue` tagged weak slot, and the `NapiRef`
reference with its refcount-driven strong/weak storage selection.

Machine values are modelled over `Nat`: a `JSValue` is its 64-bit encoded
word (JavaScriptCore's JSVALUE64 representation), pointers are opaque
naturals, and C `nullptr` fields become `Option`.
-/

namespace Zig

/-- A JavaScriptCore `JSValue`, modelled by its 64-bit encoded word
(`EncodedJSValue`).  In JSVALUE64 a `JSValue` is exactly this word. -/
structure JSValue where
  bits : Nat
  deriving DecidableEq, Repr

/-- The empty value `JSValue()` — encoded word 0 (`ValueEmpty`). -/
def JSValue.empty : JSValue := ⟨0⟩

/-- `JSValue::encode`: the 64-bit word of the value. -/
def JSValue.encode (v : JSValue) : Nat := v.bits

/-- `JSValue::decode`: rebuild a value from its 64-bit word. -/
def JSValue.decode (b : Nat) : JSValue := ⟨b⟩

/-- `NotCellMask = NumberTag | OtherTag` from JSVALUE64
(`0xfffe000000000000 ||| 0x2`). -/
def notCellMask : Nat := 0xfffe000000000002

/-- `JSValue::isCell()`: true when no non-cell tag bit is set
(`!(u.asInt64 & NotCellMask)`). -/
def JSValue.isCell (v : JSValue) : Bool := v.bits &&& notCellMask == 0

/-- A `napi_value` is an `EncodedJSValue` reinterpreted as a pointer; we keep
the 64-bit word. -/
def NapiValue : Type := Nat

/-- `NapiHandleScopeImpl`: the ordered values appended to an open scope. -/
structure NapiHandleScopeImpl where
  values : List JSValue
  deriving DecidableEq, Repr

/-- The part of `Zig::GlobalObject` the handle conversions touch:
`m_currentNapiHandleScopeImpl`, null when no scope is open. -/
structure GlobalObject where
  m_currentNapiHandleScopeImpl : Option NapiHandleScopeImpl
  deriving DecidableEq, Repr

/-- `NapiHandleScopeImpl::append`: retain one more value in the scope. -/
def NapiHandleScopeImpl.append (s : NapiHandleScopeImpl) (v : JSValue) :
    NapiHandleScopeImpl :=
  ⟨s.values ++ [v]⟩

/-- `Zig::toJS(napi_value)`: decode the handle back to a value. -/
def toJS (val : NapiValue) : JSValue := JSValue.decode val

/-- `Zig::toNapi(JSValue, GlobalObject*)`: if the value is a cell and a handle
scope is currently open, append the value to that scope; then return the
encoded value.  Returns the handle together with the updated global state. -/
def toNapi (val : JSValue) (globalObject : GlobalObject) :
    NapiValue × GlobalObject :=
  let g' :=
    if val.isCell then
      match globalObject.m_currentNapiHandleScopeImpl with
      | some scope =>
          { globalObject with
            m_currentNapiHandleScopeImpl := some (scope.append val) }
      | none => globalObject
    else globalObject
  (JSValue.encode val, g')

/-- `NapiFinalizer`: callback pointer (null when absent) and hint. -/
structure NapiFinalizer where
  finalize_hint : Nat
  finalize_cb : Option Nat
  deriving DecidableEq, Repr

/-- `NapiWeakValue`: tagged union of no value, an inline primitive, a weak
cell, or a weak string.  A `JSC::Weak` that has been collected reads back as
null, hence the `Option` payload of the `cell`/`string` arms. -/
inductive NapiWeakValue where
  | notSet : NapiWeakValue
  | primitive (v : JSValue) : NapiWeakValue
  | cell (w : Option JSValue) : NapiWeakValue
  | string (w : Option JSValue) : NapiWeakValue
  deriving DecidableEq, Repr

/-- `NapiWeakValue::isSet()`: the tag is not `NotSet`. -/
def NapiWeakValue.isSet : NapiWeakValue → Bool
  | .notSet => false
  | _ => true

/-- `NapiWeakValue::get()`: the inline primitive, the weak payload promoted
through `JSValue(cell*)` (null becomes the empty value), or — in the
`default:` branch, tag `NotSet` — the empty value `JSValue()`. -/
def NapiWeakValue.get : NapiWeakValue → JSValue
  | .primitive v => v
  | .cell w => match w with | some v => v | none => JSValue.empty
  | .string w => match w with | some v => v | none => JSValue.empty
  | .notSet => JSValue.empty

/-- `JSC::Strong<JSC::Unknown>`: null when empty; `get()` on an empty strong
handle reads back the empty value. -/
def strongGet (strongRef : Option JSValue) : JSValue :=
  strongRef.getD JSValue.empty

/-- `NapiRef`: the reference object.  `env`, `globalObject` and `data` are
opaque; the fields driving the claims are `weakValueRef`, `strongRef` and
`refCount`. -/
structure NapiRef where
  env : Nat
  globalObject : Option Nat
  weakValueRef : NapiWeakValue
  strongRef : Option JSValue
  finalizer : NapiFinalizer
  data : Nat
  refCount : Nat
  deriving DecidableEq, Repr

/-- `NapiRef::NapiRef(env, count)`: fresh reference with the given initial
count, default (`NotSet`) weak slot and empty strong handle. -/
def NapiRef.mkRef (env : Nat) (count : Nat) : NapiRef :=
  { env := env
    globalObject := some env
    weakValueRef := .notSet
    strongRef := none
    finalizer := ⟨0, none⟩
    data := 0
    refCount := count }

/-- `NapiRef::value()`: the weak-observed value when `refCount == 0`, else
the strongly-retained value. -/
def NapiRef.value (r : NapiRef) : JSValue :=
  if r.refCount = 0 then
    r.weakValueRef.get
  else
    strongGet r.strongRef

/-- The storage-teardown steps a `NapiRef` can perform. -/
inductive TeardownStep where
  | clearStrong : TeardownStep
  | clearWeak : TeardownStep
  deriving DecidableEq, Repr

/-- `NapiRef::~NapiRef()`: `strongRef.clear()` then `weakValueRef.clear()`,
unconditionally in that order; returns the torn-down state together with the
ordered list of teardown steps performed. -/
def NapiRef.destructor (r : NapiRef) : NapiRef × List TeardownStep :=
  let r1 := { r with strongRef := none }
  let r2 := { r1 with weakValueRef := .notSet }
  (r2, [.clearStrong, .clearWeak])

/-- Modelled from the spec: `NapiRef::ref()` is declared in the header but
defined outside this tree.  It increments the count and, when transitioning
from 0, promotes the current weak-observed value into strong storage (a weak
slot that already reports gone yields a strong reference to no value). -/
def NapiRef.refOp (r : NapiRef) : NapiRef :=
  if r.refCount = 0 then
    { r with refCount := 1, strongRef := some r.weakValueRef.get }
  else
    { r with refCount := r.refCount + 1 }

/-- Modelled from the spec: `NapiRef::unref()` is declared in the header but
defined outside this tree.  It decrements the count and, on reaching 0,
demotes from strong to weak storage (re-establishing weak tracking on the
currently retained value). -/
def NapiRef.unrefOp (r : NapiRef) : NapiRef :=
  if r.refCount = 1 then
    { r with
      refCount := 0
      weakValueRef := .cell (some (strongGet r.strongRef))
      strongRef := none }
  else
    { r with refCount := r.refCount - 1 }

/-- One native call on a reference: `ref()` or `unref()`. -/
inductive RefOp where
  | ref : RefOp
  | unref : RefOp
  deriving DecidableEq, Repr

/-- Run a sequence of `ref()`/`unref()` calls left to right. -/
def NapiRef.applyOps (r : NapiRef) : List RefOp → NapiRef
  | [] => r
  | .ref :: rest => (r.refOp).applyOps rest
  | .unref :: rest => (r.unrefOp).applyOps rest

/-- Number of `ref()` calls in a sequence. -/
def countRefs : List RefOp → Nat
  | [] => 0
  | .ref :: rest => countRefs rest + 1
  | .unref :: rest => countRefs rest

/-- Number of `unref()` calls in a sequence. -/
def countUnrefs : List RefOp → Nat
  | [] => 0
  | .ref :: rest => countUnrefs rest
  | .unref :: rest => countUnrefs rest + 1

end Zig

/-- One recorded invocation of an instance-data finalizer:
`finalizer(env, data, hint)`.  The environment pointer is opaque. -/
structure FinalizerCall where
  cb : Nat
  data : Nat
  hint : Nat
  deriving DecidableEq, Repr

/-- `napi_extended_error_info`: message (null when absent), the two reserved
engine fields, and the status code.  `napi_status` is a C enum carried as an
integer. -/
structure napi_extended_error_info where
  error_message : Option String
  engine_reserved : Nat
  engine_error_code : Nat
  error_code : Int
  deriving DecidableEq, Repr

/-- `napi_env__`: the bound global object and module are opaque; the live
state is the instance-data slot (pointer, finalizer, hint) and the extended
error record. -/
structure napi_env__ where
  m_globalObject : Nat
  m_napiModule : Nat
  m_instanceData : Nat
  m_instanceDataFinalizer : Option Nat
  m_instanceDataFinalizerHint : Nat
  m_extendedErrorInfo : napi_extended_error_info
  deriving DecidableEq, Repr

/-- `napi_env__::napi_env__(globalObject, napiModule)`: fresh environment
with null instance data and finalizer, and the default error record
`{"", nullptr, 0, napi_ok}`. -/
def napi_env__.mkEnv (globalObject : Nat) (napiModule : Nat) : napi_env__ :=
  { m_globalObject := globalObject
    m_napiModule := napiModule
    m_instanceData := 0
    m_instanceDataFinalizer := none
    m_instanceDataFinalizerHint := 0
    m_extendedErrorInfo :=
      { error_message := some ""
        engine_reserved := 0
        engine_error_code := 0
        error_code := 0 } }

/-- `napi_env__::setInstanceData(data, finalizer, hint)`. -/
def napi_env__.setInstanceData (e : napi_env__) (data : Nat)
    (finalizer : Option Nat) (hint : Nat) : napi_env__ :=
  { e with
    m_instanceData := data
    m_instanceDataFinalizer := finalizer
    m_instanceDataFinalizerHint := hint }

/-- `napi_env__::cleanup()`: if a finalizer is set, invoke it on the instance
data and hint.  The environment state is not modified (in particular the
finalizer field is not cleared).  Returned: the list of finalizer
invocations this call performs. -/
def napi_env__.cleanup (e : napi_env__) : List FinalizerCall :=
  match e.m_instanceDataFinalizer with
  | some cb => [⟨cb, e.m_instanceData, e.m_instanceDataFinalizerHint⟩]
  | none => []

/-- `napi_env__::setLastError(status)`: store the code in the extended error
record and hand the same status back. -/
def napi_env__.setLastError (e : napi_env__) (status : Int) :
    napi_env__ × Int :=
  ({ e with
     m_extendedErrorInfo := { e.m_extendedErrorInfo with error_code := status } },
   status)

/-- `last_status = napi_would_deadlock`, the top of the contiguous status
range (the `static_assert` in the source pins the table length to
`last_status + 1`, with 22 entries). -/
def last_status : Int := 21

/-- The `error_messages` table from `getLastErrorInfo`, indexed by status;
`none` is the `nullptr` entry for `napi_ok`. -/
def error_messages : List (Option String) :=
  [none,
   some "Invalid argument",
   some "An object was expected",
   some "A string was expected",
   some "A string or symbol was expected",
   some "A function was expected",
   some "A number was expected",
   some "A boolean was expected",
   some "An array was expected",
   some "Unknown failure",
   some "An exception is pending",
   some "The async work item was cancelled",
   some "napi_escape_handle already called on scope",
   some "Invalid handle scope usage",
   some "Invalid callback scope usage",
   some "Thread-safe function queue is full",
   some "Thread-safe function handle is closing",
   some "A bigint was expected",
   some "A date was expected",
   some "An arraybuffer was expected",
   some "A detachable arraybuffer was expected",
   some "Main thread would deadlock"]

/-- `napi_env__::getLastErrorInfo()`: re-derive the message from the table
using the stored code (in-range codes index the table, out-of-range codes
yield a null message), store it back into the record, and return the record
(with the updated environment). -/
def napi_env__.getLastErrorInfo (e : napi_env__) :
    napi_env__ × napi_extended_error_info :=
  let status := e.m_extendedErrorInfo.error_code
  let msg : Option String :=
    if 0 ≤ status ∧ status ≤ last_status then
      error_messages.getD status.toNat none
    else
      none
  let info := { e.m_extendedErrorInfo with error_message := msg }
  ({ e with m_extendedErrorInfo := info }, info)

open Zig

theorem refOp_refCount (r : NapiRef) : r.refOp.refCount = r.refCount + 1 := by
  by_cases h : r.refCount = 0 <;> simp [NapiRef.refOp, h]

theorem unrefOp_refCount (r : NapiRef) :
    r.unrefOp.refCount = r.refCount - 1 := by
  by_cases h : r.refCount = 1 <;> simp [NapiRef.unrefOp, h]

theorem applyOps_refCount_aux (ops : List RefOp) :
    ∀ (r : NapiRef) (k : Nat), k ≤ r.refCount →
    (∀ j, countUnrefs (ops.take j) ≤ countRefs (ops.take j) + k) →
    (r.applyOps ops).refCount + countUnrefs ops = r.refCount + countRefs ops := by
  induction ops with
  | nil => intro r k _ _; simp [NapiRef.applyOps, countRefs, countUnrefs]
  | cons op rest ih =>
    intro r k hk hpre
    cases op with
    | ref =>
      have hrest : ∀ j, countUnrefs (rest.take j) ≤ countRefs (rest.take j) + (k + 1) := by
        intro j
        have := hpre (j + 1)
        simp [List.take, countRefs, countUnrefs] at this
        omega
      have h1 : r.refOp.refCount = r.refCount + 1 := refOp_refCount r
      have h2 := ih r.refOp (k + 1) (by omega) hrest
      simp only [NapiRef.applyOps, countRefs, countUnrefs]
      omega
    | unref =>
      have hk1 : 1 ≤ k := by
        have := hpre 1
        simpa [List.take, countRefs, countUnrefs] using this
      have hrest : ∀ j, countUnrefs (rest.take j) ≤ countRefs (rest.take j) + (k - 1) := by
        intro j
        have := hpre (j + 1)
        simp [List.take, countRefs, countUnrefs] at this
        omega
      have h1 : r.unrefOp.refCount = r.refCount - 1 := unrefOp_refCount r
      have h2 := ih r.unrefOp (k - 1) (by omega) hrest
      simp only [NapiRef.applyOps, countRefs, countUnrefs]
      omega

/-- C1: `NapiRef::value()` returns the weak-observed value
(`weakValueRef.get()`) when `refCount == 0`, and the strongly-retained value
(`strongRef.get()`) when `refCount > 0`. -/
theorem NapiRef_value_weak_or_strong (r : NapiRef) :
    (r.refCount = 0 → r.value = r.weakValueRef.get) ∧
    (r.refCount > 0 → r.value = strongGet r.strongRef) := by
  constructor
  · intro h; simp [NapiRef.value, h]
  · intro h
    have hne : r.refCount ≠ 0 := by omega
    simp [NapiRef.value, hne]

theorem NapiRef_value_weak_or_strong_witness :
    ((NapiRef.mkRef 1 0).value = (NapiRef.mkRef 1 0).weakValueRef.get) ∧
    ((NapiRef.mkRef 1 2).value = strongGet (NapiRef.mkRef 1 2).strongRef) :=
  ⟨(NapiRef_value_weak_or_strong (NapiRef.mkRef 1 0)).1 rfl,
   (NapiRef_value_weak_or_strong (NapiRef.mkRef 1 2)).2 (by decide)⟩

/-- C2: starting from initial count `c`, after any interleaved sequence of
`ref()`/`unref()` calls in which the unref count never exceeds the ref count
on any prefix, the reference count equals `c + n - m` where `n` and `m` are
the total numbers of `ref()` and `unref()` calls. -/
theorem NapiRef_refCount_after_ops (env c : Nat) (ops : List RefOp)
    (hpre : ∀ j, j ≤ ops.length →
      countUnrefs (ops.take j) ≤ countRefs (ops.take j)) :
    ((NapiRef.mkRef env c).applyOps ops).refCount
      = c + countRefs ops - countUnrefs ops := by
  have hall : ∀ j, countUnrefs (ops.take j) ≤ countRefs (ops.take j) + 0 := by
    intro j
    rcases le_or_lt j ops.length with h | h
    · simpa using hpre j h
    · rw [List.take_of_length_le (le_of_lt h)]
      simpa [List.take_length] using hpre ops.length le_rfl
  have h := applyOps_refCount_aux ops (NapiRef.mkRef env c) 0 (Nat.zero_le _) hall
  have hm := hall ops.length
  rw [List.take_length] at hm
  have hc : (NapiRef.mkRef env c).refCount = c := rfl
  omega

theorem NapiRef_refCount_after_ops_witness :
    (∀ j, j ≤ ([RefOp.ref, .ref, .unref, .ref, .unref]).length →
      countUnrefs (([RefOp.ref, .ref, .unref, .ref, .unref]).take j)
        ≤ countRefs (([RefOp.ref, .ref, .unref, .ref, .unref]).take j)) ∧
    ((NapiRef.mkRef 7 2).applyOps [RefOp.ref, .ref, .unref, .ref, .unref]).refCount
      = 2 + 3 - 2 :=
  ⟨by decide,
   NapiRef_refCount_after_ops 7 2 [RefOp.ref, .ref, .unref, .ref, .unref] (by decide)⟩

/-- C3: the `NapiRef` destructor clears the strong storage strictly before
clearing the weak storage, whatever state the reference is in (so in both
the `refCount == 0` and `refCount > 0` states). -/
theorem NapiRef_destructor_strong_before_weak (r : NapiRef) :
    TeardownStep.clearStrong ∈ (r.destructor).2 ∧
    TeardownStep.clearWeak ∈ (r.destructor).2 ∧
    (r.destructor).2.indexOf TeardownStep.clearStrong
      < (r.destructor).2.indexOf TeardownStep.clearWeak := by
  have h : (r.destructor).2 = [.clearStrong, .clearWeak] := rfl
  rw [h]
  refine ⟨by simp, by simp, by decide⟩

/-- C4 counterexample: on an environment whose instance data was set with a
finalizer, one `cleanup()` call fires the finalizer once, and because
`cleanup()` leaves the environment (in particular the finalizer field)
unchanged, a second `cleanup()` call on the resulting state fires it again —
two invocations in total, refuting that a second call does not invoke the
finalizer again. -/
theorem napi_env_cleanup_double_fires :
    ((napi_env__.mkEnv 1 2).setInstanceData 10 (some 5) 20).cleanup
        = [⟨5, 10, 20⟩] ∧
    (((napi_env__.mkEnv 1 2).setInstanceData 10 (some 5) 20).cleanup ++
      ((napi_env__.mkEnv 1 2).setInstanceData 10 (some 5) 20).cleanup).length
        = 2 := by
  constructor <;> rfl

/-- C4 amended: each `cleanup()` call invokes the instance-data finalizer
exactly once when a finalizer was installed via `setInstanceData`, and never
otherwise; a fresh environment performs no invocation.  Because `cleanup()`
does not clear the finalizer field, a second call fires the finalizer
again. -/
theorem napi_env_cleanup_calls (e : napi_env__) (g m : Nat) :
    (∀ cb, e.m_instanceDataFinalizer = some cb →
      e.cleanup = [⟨cb, e.m_instanceData, e.m_instanceDataFinalizerHint⟩]) ∧
    (e.m_instanceDataFinalizer = none → e.cleanup = []) ∧
    (napi_env__.mkEnv g m).cleanup = [] := by
  refine ⟨?_, ?_, rfl⟩
  · intro cb h; simp [napi_env__.cleanup, h]
  · intro h; simp [napi_env__.cleanup, h]

theorem napi_env_cleanup_calls_witness :
    (((napi_env__.mkEnv 1 2).setInstanceData 10 (some 5) 20).cleanup
        = [⟨5, 10, 20⟩]) ∧
    ((napi_env__.mkEnv 3 4).cleanup = []) :=
  ⟨(napi_env_cleanup_calls ((napi_env__.mkEnv 1 2).setInstanceData 10 (some 5) 20) 0 0).1 5 rfl,
   (napi_env_cleanup_calls (napi_env__.mkEnv 3 4) 0 0).2.1 rfl⟩

/-- C5 counterexample: with a handle scope open, a non-cell (primitive)
value passed through `toNapi` is not appended to the scope — the scope keeps
its previous contents — refuting that every value is appended whenever a
scope is open. -/
theorem toNapi_primitive_not_appended :
    (Zig.toNapi ⟨0xfffe000000000005⟩ ⟨some ⟨[]⟩⟩).2.m_currentNapiHandleScopeImpl
        = some ⟨[]⟩ ∧
    (Zig.toNapi ⟨0xfffe000000000005⟩ ⟨some ⟨[]⟩⟩).2.m_currentNapiHandleScopeImpl
        ≠ some ⟨[⟨0xfffe000000000005⟩]⟩ := by
  constructor
  · rfl
  · decide

/-- C5 amended: a value handed to native code through `toNapi` is appended to
the currently open (innermost) scope exactly when it is a cell and a scope is
open; when the value is not a cell, or no scope is open, the global state is
left unchanged and nothing is appended. -/
theorem toNapi_scope_append (v : JSValue) (g : GlobalObject) :
    (∀ s, v.isCell = true → g.m_currentNapiHandleScopeImpl = some s →
      (Zig.toNapi v g).2.m_currentNapiHandleScopeImpl = some (s.append v)) ∧
    (v.isCell = false → (Zig.toNapi v g).2 = g) ∧
    (g.m_currentNapiHandleScopeImpl = none → (Zig.toNapi v g).2 = g) := by
  refine ⟨?_, ?_, ?_⟩
  · intro s hcell hs
    simp [Zig.toNapi, hcell, hs]
  · intro hcell
    simp [Zig.toNapi, hcell]
  · intro hs
    by_cases hcell : v.isCell <;> simp [Zig.toNapi, hcell, hs]

theorem toNapi_scope_append_witness :
    ((Zig.toNapi ⟨16⟩ ⟨some ⟨[]⟩⟩).2.m_currentNapiHandleScopeImpl
        = some (NapiHandleScopeImpl.append ⟨[]⟩ ⟨16⟩)) ∧
    ((Zig.toNapi ⟨0xfffe000000000005⟩ ⟨some ⟨[]⟩⟩).2 = (⟨some ⟨[]⟩⟩ : GlobalObject)) ∧
    ((Zig.toNapi ⟨16⟩ ⟨none⟩).2 = (⟨none⟩ : GlobalObject)) :=
  ⟨(toNapi_scope_append ⟨16⟩ ⟨some ⟨[]⟩⟩).1 ⟨[]⟩ (by decide) rfl,
   (toNapi_scope_append ⟨0xfffe000000000005⟩ ⟨some ⟨[]⟩⟩).2.1 (by decide),
   (toNapi_scope_append ⟨16⟩ ⟨none⟩).2.2 rfl⟩

/-- C6: after `setLastError(code)`, `getLastErrorInfo()` returns a record
whose `error_code` is exactly that code, and whose `error_message` is the
fixed table entry for the code when the code lies in the contiguous range
`napi_ok .. napi_would_deadlock`; for any code outside that range the
returned message is null. -/
theorem getLastErrorInfo_after_setLastError (e : napi_env__) (s : Int) :
    (((e.setLastError s).1.getLastErrorInfo).2.error_code = s) ∧
    (0 ≤ s ∧ s ≤ last_status →
      ((e.setLastError s).1.getLastErrorInfo).2.error_message
        = error_messages.getD s.toNat none) ∧
    (¬(0 ≤ s ∧ s ≤ last_status) →
      ((e.setLastError s).1.getLastErrorInfo).2.error_message = none) := by
  refine ⟨rfl, ?_, ?_⟩
  · intro h
    simp [napi_env__.setLastError, napi_env__.getLastErrorInfo, h]
  · intro h
    simp [napi_env__.setLastError, napi_env__.getLastErrorInfo, h]

theorem getLastErrorInfo_after_setLastError_witness :
    ((((napi_env__.mkEnv 0 0).setLastError 3).1.getLastErrorInfo).2.error_message
        = error_messages.getD 3 none) ∧
    ((((napi_env__.mkEnv 0 0).setLastError 22).1.getLastErrorInfo).2.error_message
        = none) :=
  ⟨(getLastErrorInfo_after_setLastError (napi_env__.mkEnv 0 0) 3).2.1 (by decide),
   (getLastErrorInfo_after_setLastError (napi_env__.mkEnv 0 0) 22).2.2 (by decide)⟩

/-- C7: `setLastError(status)` returns exactly the status it was given, for
every environment state. -/
theorem setLastError_returns_status (e : napi_env__) (s : Int) :
    (e.setLastError s).2 = s := rfl

/-- C8: `setLastError` updates only the `error_code` field of the extended
error record, leaving every other part of the environment unchanged; and the
message produced by `getLastErrorInfo()` depends only on the stored code
(it is recomputed from the fixed table at read time), not on any previously
stored message. -/
theorem setLastError_only_error_code (e e₁ e₂ : napi_env__) (s : Int) :
    ((e.setLastError s).1 =
      { e with m_extendedErrorInfo :=
          { e.m_extendedErrorInfo with error_code := s } }) ∧
    (e₁.m_extendedErrorInfo.error_code = e₂.m_extendedErrorInfo.error_code →
      (e₁.getLastErrorInfo).2.error_message
        = (e₂.getLastErrorInfo).2.error_message) := by
  refine ⟨rfl, ?_⟩
  intro h
  simp [napi_env__.getLastErrorInfo, h]

theorem setLastError_only_error_code_witness :
    ((napi_env__.mkEnv 9 9).setLastError 4).1 =
      { napi_env__.mkEnv 9 9 with m_extendedErrorInfo :=
          { (napi_env__.mkEnv 9 9).m_extendedErrorInfo with error_code := 4 } } ∧
    ((((napi_env__.mkEnv 0 0).setLastError 4).1.getLastErrorInfo).2.error_message
      = (((napi_env__.mkEnv 1 1).setLastError 4).1.getLastErrorInfo).2.error_message) :=
  ⟨(setLastError_only_error_code (napi_env__.mkEnv 9 9)
      (napi_env__.mkEnv 0 0) (napi_env__.mkEnv 1 1) 4).1,
   (setLastError_only_error_code (napi_env__.mkEnv 9 9)
      (((napi_env__.mkEnv 0 0).setLastError 4).1)
      (((napi_env__.mkEnv 1 1).setLastError 4).1) 4).2 rfl⟩

/-- C9: decoding the handle produced by encoding round-trips to the same
value — `toJS(toNapi(v, g)) = v` — for every value (cell or primitive) and
every global state (scope open or not). -/
theorem toJS_toNapi_roundtrip (v : JSValue) (g : GlobalObject) :
    Zig.toJS (Zig.toNapi v g).1 = v := rfl

/-- C10: a `NapiWeakValue` whose tag is `NotSet` — as a freshly constructed
slot is — reads back the empty value `JSValue()` from `get()`, never a stale
payload. -/
theorem NapiWeakValue_get_of_not_set (w : NapiWeakValue) :
    w.isSet = false → w.get = JSValue.empty := by
  cases w <;> simp [NapiWeakValue.isSet, NapiWeakValue.get]

theorem NapiWeakValue_get_of_not_set_witness :
    NapiWeakValue.get .notSet = JSValue.empty :=
  NapiWeakValue_get_of_not_set .notSet rfl
